import Mathlib

/-!
Verification development for the agentic-search LTR training pipeline
(`properties-learn-to-rank.py` and `unified-datastream-ltr-trainer.py`).

Python floats are modelled as real numbers (`ℝ`); `np.log` is `Real.log`,
`np.log2 x` is `Real.logb 2 x`, and Python `int()` applied to the
nonnegative values arising here is `Int.floor`.  Python dicts holding the
feature mapping are modelled as association lists `List (String × ℝ)`
with first-match lookup; assignment overwrites an existing key in place
and otherwise appends at the end, exactly as a Python dict does.
Randomness (`np.random.normal`, `np.random.choice`) is modelled by
passing the drawn values explicitly: a normal draw becomes a real
parameter, and `np.random.choice` over a three-element list becomes an
index `Fin 3` into that list.  External collaborators (the telemetry
store, the document store, `hash`) are modelled as oracle parameters.
-/

namespace LTR

/-- Canonical feature-name list `self.feature_names` from the trainer
constructor (properties-learn-to-rank.py lines 78-148). -/
def feature_names : List String :=
  [ "position",
    "position_log",
    "position_reciprocal",
    "position_bias_factor",
    "position_engagement_signal",
    "elasticsearch_score",
    "search_time_ms",
    "template_complexity",
    "query_length",
    "query_word_count",
    "query_complexity_score",
    "has_geo_filter",
    "has_price_filter",
    "has_bedroom_filter",
    "click_count",
    "view_count",
    "interaction_rate",
    "conversational_detection",
    "user_engagement_score",
    "session_query_count",
    "session_avg_position",
    "time_in_session_ms",
    "title_query_overlap",
    "description_query_overlap",
    "exact_match_score",
    "bm25_title_score",
    "bm25_description_score",
    "bm25_features_score",
    "bm25_headings_score",
    "bm25_combined_score",
    "semantic_description_similarity",
    "semantic_features_similarity",
    "semantic_query_embedding_match",
    "property_price_normalized",
    "bedrooms_match_score",
    "bathrooms_match_score",
    "square_footage_normalized",
    "annual_tax_normalized",
    "maintenance_fee_normalized",
    "price_value_competitiveness",
    "absolute_price_tier",
    "geo_distance_km",
    "geo_relevance_score",
    "same_neighborhood",
    "title_query_exact_match",
    "description_query_coverage",
    "features_query_overlap",
    "property_status_relevance" ]

/-- Keys of a feature mapping (a Python dict modelled as an assoc list). -/
def dict_keys (d : List (String × ℝ)) : List String :=
  d.map Prod.fst

/-- Membership test `k in d` on a Python dict. -/
def dict_has_key (d : List (String × ℝ)) (k : String) : Bool :=
  d.any (fun p => p.1 == k)

/-- Python dict assignment `d[k] = v`: overwrite in place if the key is
present, otherwise append at the end. -/
def dict_set (d : List (String × ℝ)) (k : String) (v : ℝ) : List (String × ℝ) :=
  if dict_has_key d k then d.map (fun p => if p.1 == k then (p.1, v) else p)
  else d ++ [(k, v)]

/-- Python dict read `d[k]` (all call sites below only read keys that are
present, so the default is never observable). -/
def dict_get (d : List (String × ℝ)) (k : String) : ℝ :=
  (d.lookup k).getD 0

/-- Python `d.update(kvs)`: assign every pair of `kvs` in order. -/
def dict_update (d : List (String × ℝ)) (kvs : List (String × ℝ)) : List (String × ℝ) :=
  kvs.foldl (fun acc kv => dict_set acc kv.1 kv.2) d

/-- One entry of `interaction_lookup[key]` as built by
`_build_interaction_lookup`: position, interaction type string, and the
conversational flag. -/
structure Interaction where
  position : ℕ
  itype : String
  conversational : Bool
deriving DecidableEq

/-- Python's substring test `pat in s`. -/
def str_contains (pat s : String) : Bool :=
  decide (pat.toList <:+: s.toList)

/-- Test `'click' in str(i['type']) or 'property_engagement' in str(i['type'])`
used to classify click-like interactions
(properties-learn-to-rank.py line 897). -/
def is_click_like (t : String) : Bool :=
  str_contains "click" t || str_contains "property_engagement" t

/-- The `click_interactions` list comprehension. -/
def click_interactions (interactions : List Interaction) : List Interaction :=
  interactions.filter (fun i => is_click_like i.itype)

/-- The `conversational_interactions` list comprehension. -/
def conversational_interactions (interactions : List Interaction) : List Interaction :=
  interactions.filter (fun i => i.conversational)

/-- Position boost factor from `_calculate_relevance_and_update_features`
(lines 905-910): `min(10, log2(position+5))` for positions ≥ 8,
`min(5, log2(position+1))` for positions 4-7, else 0. -/
noncomputable def position_boost (position : ℕ) : ℝ :=
  if 8 ≤ position then min 10 (Real.logb 2 ((position : ℝ) + 5))
  else if 3 < position then min 5 (Real.logb 2 ((position : ℝ) + 1))
  else 0

/-- No-interaction branch (lines 936-943): relevance is
`np.random.choice` from a rank-tier list ([2,3,4] with p=[.2,.5,.3] at
rank 1; [1,2,3] with p=[.3,.5,.2] at ranks 2-3; [0,1,2] with
p=[.6,.3,.1] below).  The draw is the index of the chosen element. -/
def no_interaction_relevance (position : ℕ) (draw : Fin 3) : ℤ :=
  if position = 1 then [2, 3, 4].getD draw.val 0
  else if position ≤ 3 then [1, 2, 3].getD draw.val 0
  else [0, 1, 2].getD draw.val 0

/-- `_calculate_relevance_and_update_features(key, position, features,
interaction_lookup)` (lines 889-945).  `interactions` is
`interaction_lookup[key]` when `key in interaction_lookup`, else `none`.
Python's `if conversational: A elif click: B else: C` is rendered with
the empty cases first.  `int()` on the nonnegative grades is `⌊·⌋`. -/
noncomputable def calculate_relevance_and_update_features
    (interactions : Option (List Interaction)) (position : ℕ)
    (features : List (String × ℝ)) (draw : Fin 3) : ℤ × List (String × ℝ) :=
  match interactions with
  | some is =>
    let clicks := click_interactions is
    let convs := conversational_interactions is
    let f1 := dict_set features "click_count" clicks.length
    let f2 := dict_set f1 "view_count" is.length
    let f3 := dict_set f2 "interaction_rate"
      ((clicks.length : ℝ) / ((max 1 is.length : ℕ) : ℝ))
    let f4 := dict_set f3 "conversational_detection" (if convs.isEmpty then 0 else 1)
    let position_engagement : ℝ :=
      if clicks.isEmpty then 0
      else if 8 ≤ position then min 1 (0.7 + (position : ℝ) / 15)
      else min 1 (0.5 + (position : ℝ) / 20)
    let f5 := dict_set f4 "position_engagement_signal" position_engagement
    if convs.isEmpty then
      if clicks.isEmpty then
        (2, dict_set f5 "user_engagement_score" 0.5)
      else
        (⌊(4 : ℝ) + position_boost position⌋,
         dict_set f5 "user_engagement_score" (0.8 + position_boost position * 0.05))
    else
      (⌊(5 : ℝ) + position_boost position⌋,
       dict_set f5 "user_engagement_score" (0.95 + position_boost position * 0.02))
  | none => (no_interaction_relevance position draw, features)

/-- Relevance labeler of the near-duplicate script
`unified-datastream-ltr-trainer.py` (lines 728-759): no position boost,
grades 4/3/2 for conversational/click/view, same no-interaction draw.
Its click test is `'click' in str(i['type'])` only. -/
def unified_relevance (interactions : Option (List Interaction)) (position : ℕ)
    (draw : Fin 3) : ℤ :=
  match interactions with
  | some is =>
    let clicks := is.filter (fun i => str_contains "click" i.itype)
    let convs := is.filter (fun i => i.conversational)
    if convs.isEmpty then (if clicks.isEmpty then 2 else 3) else 4
  | none => no_interaction_relevance position draw

/-- Per-session query metadata dict built by `_process_search_results`
(lines 642-652).  `search_event` stands for `str(source)`, the serialized
full event used only by the string-search fallback; `timestamp` is
carried but never read downstream. -/
structure SessionMeta where
  query : String
  results_count : ℕ
  search_time : ℝ
  template_id : String
  timestamp : String
  has_geo_filter : Bool
  has_price_filter : Bool
  has_bedroom_filter : Bool
  search_event : String

/-- The four `np.random.normal` draws consumed by
`_extract_base_features` (elasticsearch_score and the three overlap
features). -/
structure BaseNoise where
  es_score : ℝ
  title_overlap : ℝ
  description_overlap : ℝ
  exact_match : ℝ

/-- Python `len(query.split())`: split on whitespace runs, dropping empty
tokens. -/
def word_count (query : String) : ℕ :=
  ((query.splitOn " ").filter (fun w => w != "")).length

/-- `_extract_base_features(position, search_time, template_id, query,
search_event, metadata)` (lines 821-865). -/
noncomputable def extract_base_features (position : ℕ) (search_time : ℝ)
    (template_id query search_event : String) (metadata : Option SessionMeta)
    (ε : BaseNoise) : List (String × ℝ) :=
  let has_geo_filter : ℝ :=
    match metadata with
    | some m => if m.has_geo_filter then 1 else 0
    | none => if str_contains "latitude" search_event || str_contains "longitude" search_event then 1 else 0
  let has_price_filter : ℝ :=
    match metadata with
    | some m => if m.has_price_filter then 1 else 0
    | none => if str_contains "price" search_event || str_contains "home_price" search_event then 1 else 0
  let has_bedroom_filter : ℝ :=
    match metadata with
    | some m => if m.has_bedroom_filter then 1 else 0
    | none => if str_contains "bedrooms" search_event then 1 else 0
  [ ("position", (position : ℝ)),
    ("position_reciprocal", 1 / (position : ℝ)),
    ("position_bias_factor", 1 / Real.logb 2 ((position : ℝ) + 1)),
    ("position_log", Real.log ((position : ℝ) + 1)),
    ("position_engagement_signal", 0),
    ("elasticsearch_score", max 0 (10 - (position : ℝ) + ε.es_score)),
    ("search_time_ms", search_time),
    ("template_complexity",
      if str_contains "rrf" template_id then 0.8
      else if str_contains "linear-v2" template_id then 0.6 else 0.4),
    ("query_length", (query.length : ℝ)),
    ("query_word_count", (word_count query : ℝ)),
    ("query_complexity_score", if 3 < word_count query then 0.8 else 0.5),
    ("has_geo_filter", has_geo_filter),
    ("has_price_filter", has_price_filter),
    ("has_bedroom_filter", has_bedroom_filter),
    ("click_count", 0),
    ("view_count", 0),
    ("interaction_rate", 0),
    ("conversational_detection", 0),
    ("user_engagement_score", 0),
    ("session_query_count", 1),
    ("session_avg_position", (position : ℝ)),
    ("time_in_session_ms", search_time),
    ("title_query_overlap", max 0 (1 - ((position : ℝ) - 1) * 0.1 + ε.title_overlap)),
    ("description_query_overlap", max 0 (1 - ((position : ℝ) - 1) * 0.08 + ε.description_overlap)),
    ("exact_match_score", max 0 (1 - ((position : ℝ) - 1) * 0.15 + ε.exact_match)) ]

/-- `get_default_property_features` (lines 566-592). -/
noncomputable def get_default_property_features : List (String × ℝ) :=
  [ ("bm25_title_score", 0),
    ("bm25_description_score", 0),
    ("bm25_features_score", 0),
    ("bm25_headings_score", 0),
    ("bm25_combined_score", 0),
    ("semantic_description_similarity", 0),
    ("semantic_features_similarity", 0),
    ("semantic_query_embedding_match", 0),
    ("property_price_normalized", 0.5),
    ("bedrooms_match_score", 0.5),
    ("bathrooms_match_score", 0.5),
    ("square_footage_normalized", 0.5),
    ("annual_tax_normalized", 0.5),
    ("maintenance_fee_normalized", 0.5),
    ("price_value_competitiveness", 0.5),
    ("absolute_price_tier", 0.5),
    ("geo_distance_km", 10),
    ("geo_relevance_score", 0.5),
    ("same_neighborhood", 0),
    ("title_query_exact_match", 0),
    ("description_query_coverage", 0),
    ("features_query_overlap", 0),
    ("property_status_relevance", 0.7) ]

/-- `_enrich_features_with_property_data` (lines 867-887).
`property_data` is the fetched document source (`some` fields) or `none`
when the fetch raised; on success each document field not already present
is added, on failure the defaults are merged with `dict.update`. -/
noncomputable def enrich_features_with_property_data
    (features : List (String × ℝ)) (property_data : Option (List (String × ℝ))) :
    List (String × ℝ) :=
  match property_data with
  | some pd => pd.foldl (fun fs kv => if dict_has_key fs kv.1 then fs else fs ++ [kv]) features
  | none => dict_update features get_default_property_features

/-- One element of the `training_examples` list (lines 803-807). -/
structure TrainingExample where
  features : List (String × ℝ)
  relevance : ℤ
  qid : ℕ

/-- The per-example loop body of `_prepare_training_data` (lines 993-1001):
every canonical feature name absent from the mapping is assigned 0.0. -/
def fill_missing_features (features : List (String × ℝ)) : List (String × ℝ) :=
  feature_names.foldl
    (fun fs fname => if dict_has_key fs fname then fs else fs ++ [(fname, 0)]) features

/-- `_prepare_training_data` (lines 988-1006): returns the X rows, the
labels and the qids as parallel lists. -/
def prepare_training_data (examples : List TrainingExample) :
    List (List ℝ) × List ℤ × List ℕ :=
  (examples.map (fun e => feature_names.map (dict_get (fill_missing_features e.features))),
   examples.map (fun e => e.relevance),
   examples.map (fun e => e.qid))

/-- Oracles for the external collaborators and the random draws consumed
while building training examples: the document-existence check, the
property fetch (`none` = fetch failed), the base-feature noise, the
no-interaction draw, and Python's `hash` on the session id. -/
structure PipelineEnv where
  doc_exists : String → Bool
  property_data : String → Option (List (String × ℝ))
  base_noise : String → ℕ → BaseNoise
  rand_draw : String → ℕ → Fin 3
  session_hash : String → ℕ

/-- The example-construction part of the `_process_search_positions` loop
body (lines 790-807): base features, enrichment, relevance labelling,
and the qid `hash(session_id) % 10000`. -/
noncomputable def build_training_example (env : PipelineEnv)
    (session_id query : String) (search_time : ℝ)
    (template_id search_event : String) (metadata : Option SessionMeta)
    (interaction_lookup : String → Option (List Interaction))
    (position : ℕ) (doc_id : String) : TrainingExample :=
  let features := extract_base_features position search_time template_id query
    search_event metadata (env.base_noise session_id position)
  let features := enrich_features_with_property_data features (env.property_data doc_id)
  let key := session_id ++ "_" ++ doc_id
  let rf := calculate_relevance_and_update_features (interaction_lookup key) position
    features (env.rand_draw session_id position)
  { features := rf.2, relevance := rf.1, qid := env.session_hash session_id % 10000 }

/-- `_process_search_positions` (lines 775-807): positions
`range(1, min(11, results_count + 1))`; a position is skipped when the
session lookup has no document id for it, when that id is falsy (empty),
or when the document does not exist in the properties index. -/
noncomputable def process_search_positions (env : PipelineEnv)
    (session_id query : String) (results_count : ℕ) (search_time : ℝ)
    (template_id : String) (session_results : List (ℕ × String))
    (interaction_lookup : String → Option (List Interaction))
    (search_event : String) (metadata : Option SessionMeta) : List TrainingExample :=
  (List.range' 1 (min 10 results_count)).filterMap (fun position =>
    match session_results.lookup position with
    | none => none
    | some doc_id =>
      if doc_id = "" then none
      else if env.doc_exists doc_id then
        some (build_training_example env session_id query search_time template_id
          search_event metadata interaction_lookup position doc_id)
      else none)

/-- `_process_search_results_for_training` (lines 747-773): iterate the
query-metadata dict; a session is skipped when its id is falsy or its
result count is 0, or when it has no (or an empty) entry in
`results_lookup`. -/
noncomputable def process_search_results_for_training (env : PipelineEnv)
    (results_lookup : List (String × List (ℕ × String)))
    (query_metadata : List (String × SessionMeta))
    (interaction_lookup : String → Option (List Interaction)) : List TrainingExample :=
  query_metadata.flatMap (fun p =>
    let session_id := p.1
    let metadata := p.2
    if session_id = "" ∨ metadata.results_count = 0 then []
    else
      let session_results := (results_lookup.lookup session_id).getD []
      if session_results.isEmpty then []
      else process_search_positions env session_id metadata.query metadata.results_count
        metadata.search_time metadata.template_id session_results interaction_lookup
        metadata.search_event (some metadata))

/-- The grouped matrix `{'X': ..., 'y': ..., 'groups': ...}` returned by
`_prepare_grouped_data`. -/
structure GroupedData (α : Type) where
  X : List α
  y : List ℤ
  groups : List ℕ

/-- Insert into a strictly sorted duplicate-free list. -/
def insert_sorted_unique (x : ℕ) : List ℕ → List ℕ
  | [] => [x]
  | y :: ys => if x < y then x :: y :: ys else if x = y then y :: ys else y :: insert_sorted_unique x ys

/-- `np.unique`: the sorted list of distinct values. -/
def np_unique (l : List ℕ) : List ℕ :=
  l.foldr insert_sorted_unique []

/-- Boolean-mask row selection `rows[qids == qid]` for each unique qid
in sorted order (`X_grouped` and `y_grouped` of `_prepare_grouped_data`),
rendered by filtering `rows.zip qids` on the qid component. -/
def grouped_rows {α : Type} (rows : List α) (qids : List ℕ) : List (List α) :=
  (np_unique qids).map (fun q => ((rows.zip qids).filter (fun p => p.2 == q)).map Prod.fst)

/-- The `group_sizes` list of `_prepare_grouped_data`: `np.sum(mask)`
per unique qid is `qids.count q`. -/
def group_sizes_of (qids : List ℕ) : List ℕ :=
  (np_unique qids).map (fun q => qids.count q)

/-- `_prepare_grouped_data(X, y, qids)` (lines 1012-1055).  `np.vstack`
and `np.concatenate` are `flatten`.  The three guards
(`not group_sizes`, `sum(group_sizes) != len(X_sorted)`,
`not X_sorted.size`) each return `None`. -/
def prepare_grouped_data {α : Type} (X : List α) (y : List ℤ) (qids : List ℕ) :
    Option (GroupedData α) :=
  if (group_sizes_of qids).isEmpty then none
  else if (group_sizes_of qids).sum ≠ (grouped_rows X qids).flatten.length then none
  else if (grouped_rows X qids).flatten.isEmpty then none
  else some ⟨(grouped_rows X qids).flatten, (grouped_rows y qids).flatten, group_sizes_of qids⟩

/-- The qid attached to each output row of `_prepare_grouped_data`, in
output order: the rows of group `q` are exactly the rows selected by the
mask `qids == q`, concatenated group after group. -/
def row_qids (qids : List ℕ) : List ℕ :=
  (np_unique qids).flatMap (fun q => List.replicate (qids.count q) q)

/-- Declarative counterpart for C6, following the spec's words: a
position resolves when the session's result lookup maps it to a
non-empty document id that exists in the properties index. -/
def resolvable_position (env : PipelineEnv) (session_results : List (ℕ × String))
    (position : ℕ) : Bool :=
  match session_results.lookup position with
  | some doc_id => doc_id != "" && env.doc_exists doc_id
  | none => false

/-- Declarative counterpart for C6: the qualifying positions of a
session, `position ∈ [1, min(10, results_count)]` and resolvable. -/
def valid_positions (env : PipelineEnv) (session_results : List (ℕ × String))
    (results_count : ℕ) : List ℕ :=
  (List.range' 1 (min 10 results_count)).filter
    (fun p => resolvable_position env session_results p)

/-- Python slice `l[start:start+len]`. -/
def np_slice {α : Type} (l : List α) (start len : ℕ) : List α :=
  (l.drop start).take len

/-- The NDCG-collection loop of `_evaluate_model` (lines 1299-1326):
walk the group sizes with a running `start_idx`; a group contributes one
`ndcg_score(y_true_group, y_pred_group, k=min(10, len(y_true_group)))`
when its size exceeds 1 and is skipped otherwise.  `ndcg` abstracts
sklearn's `ndcg_score` (an external library function). -/
def ndcg_scores_pass (ndcg : List ℤ → List ℝ → ℕ → ℝ) (start : ℕ)
    (groups : List ℕ) (y_true : List ℤ) (y_pred : List ℝ) : List ℝ :=
  match groups with
  | [] => []
  | g :: rest =>
    (if 1 < g then
      [ndcg (np_slice y_true start g) (np_slice y_pred start g)
        (min 10 (np_slice y_true start g).length)]
     else [])
      ++ ndcg_scores_pass ndcg (start + g) rest y_true y_pred

/-- `_evaluate_model` (lines 1279-1344) restricted to its returned score:
if no group qualified for NDCG the documented default 0.7 is returned,
otherwise `np.mean(ndcg_scores)`. -/
noncomputable def evaluate_model (ndcg : List ℤ → List ℝ → ℕ → ℝ)
    (groups : List ℕ) (y_true : List ℤ) (y_pred : List ℝ) : ℝ :=
  let scores := ndcg_scores_pass ndcg 0 groups y_true y_pred
  if scores.isEmpty then 0.7 else scores.sum / (scores.length : ℝ)

/-- The deployment gate of `train_xgboost_model` (lines 979-986):
training is reported successful exactly when `avg_ndcg > 0.6`. -/
def model_passes_threshold (avg_ndcg : ℝ) : Prop :=
  0.6 < avg_ndcg

/-- A numpy matrix. -/
abbrev Mat := List (List ℝ)

/-- A heap of numpy arrays addressed by identity, used to model
in-place mutation (`*=`, `+=`) versus `.copy()` in `_fit_xgboost_model`. -/
structure ArrayHeap where
  arrs : ℕ → Mat
  next : ℕ

/-- Read the array stored at an id. -/
def ArrayHeap.get (h : ArrayHeap) (i : ℕ) : Mat :=
  h.arrs i

/-- In-place overwrite of the array at an id. -/
def ArrayHeap.set (h : ArrayHeap) (i : ℕ) (M : Mat) : ArrayHeap :=
  ⟨fun j => if j = i then M else h.arrs j, h.next⟩

/-- `.copy()`: allocate a fresh array id holding the given value. -/
def ArrayHeap.alloc (h : ArrayHeap) (M : Mat) : ArrayHeap × ℕ :=
  (⟨fun j => if j = h.next then M else h.arrs j, h.next + 1⟩, h.next)

/-- `X[:, j] *= c`. -/
def scale_column (M : Mat) (j : ℕ) (c : ℝ) : Mat :=
  M.map (fun row => row.mapIdx (fun i x => if i = j then x * c else x))

/-- One amplification step: `feature_names.index(name)` followed by the
column scaling; a `ValueError` (name absent) is caught and the step is
skipped. -/
def amplify_by_name (M : Mat) (name : String) (c : ℝ) : Mat :=
  match feature_names.indexOf? name with
  | some j => scale_column M j c
  | none => M

/-- The amplification schedule of `_fit_xgboost_model` (lines 1113-1170),
in program order: position x20, position_engagement_signal x15, the four
engagement/interaction features x10, the two profile match scores (absent
from the canonical list, hence skipped) x200/x30, and the two price
features x100. -/
def amplification_steps : List (String × ℝ) :=
  [ ("position", 20),
    ("position_engagement_signal", 15),
    ("user_engagement_score", 10),
    ("interaction_rate", 10),
    ("click_count", 10),
    ("conversational_detection", 10),
    ("low_mode_match_score", 200),
    ("high_mode_match_score", 30),
    ("price_value_competitiveness", 100),
    ("absolute_price_tier", 100) ]

/-- `X += np.random.normal(0, noise_scale, X.shape)` with the drawn noise
matrix passed explicitly. -/
def add_noise (M noise : Mat) : Mat :=
  List.zipWith (fun r n => List.zipWith (fun a b => a + b) r n) M noise

/-- One amplification step applied to both modified matrices, train
first then test, mirroring the paired `X_train_modified[:, idx] *= c;
X_test_modified[:, idx] *= c` statements. -/
def amp_step (train_mod test_mod : ℕ) (hh : ArrayHeap) (s : String × ℝ) : ArrayHeap :=
  let hA := hh.set train_mod (amplify_by_name (hh.get train_mod) s.1 s.2)
  hA.set test_mod (amplify_by_name (hA.get test_mod) s.1 s.2)

/-- The array-manipulation core of `_fit_xgboost_model` (lines 1109-1176):
copy the scaled train/test matrices, amplify the allow-listed columns of
the copies in place, then add tie-breaking noise to the copies.  Returns
the final heap together with the ids of the two modified copies (the
matrices actually passed to `model.fit`). -/
def fit_xgboost_model_arrays (h : ArrayHeap) (train_idx test_idx : ℕ)
    (noise_train noise_test : Mat) : ArrayHeap × ℕ × ℕ :=
  let a1 := h.alloc (h.get train_idx)
  let h1 := a1.1
  let train_mod := a1.2
  let a2 := h1.alloc (h1.get test_idx)
  let h2 := a2.1
  let test_mod := a2.2
  let h3 := amplification_steps.foldl (amp_step train_mod test_mod) h2
  let h4 := h3.set train_mod (add_noise (h3.get train_mod) noise_train)
  let h5 := h4.set test_mod (add_noise (h4.get test_mod) noise_test)
  (h5, train_mod, test_mod)

lemma logb_two_pow (k : ℕ) : Real.logb 2 ((2 : ℝ) ^ k) = k := by
  rw [Real.logb_pow, Real.logb_self_eq_one (by norm_num), mul_one]

lemma logb2_le_nat {x : ℝ} (k : ℕ) (hx : 0 < x) (h : x ≤ (2 : ℝ) ^ k) :
    Real.logb 2 x ≤ (k : ℝ) := by
  calc Real.logb 2 x ≤ Real.logb 2 ((2 : ℝ) ^ k) :=
        Real.logb_le_logb_of_le (by norm_num) hx h
    _ = k := logb_two_pow k

lemma nat_le_logb2 {x : ℝ} (k : ℕ) (h : (2 : ℝ) ^ k ≤ x) :
    (k : ℝ) ≤ Real.logb 2 x := by
  calc (k : ℝ) = Real.logb 2 ((2 : ℝ) ^ k) := (logb_two_pow k).symm
    _ ≤ Real.logb 2 x := Real.logb_le_logb_of_le (by norm_num) (by positivity) h

lemma logb2_lt_nat {x : ℝ} (k : ℕ) (hx : 0 < x) (h : x < (2 : ℝ) ^ k) :
    Real.logb 2 x < (k : ℝ) := by
  calc Real.logb 2 x < Real.logb 2 ((2 : ℝ) ^ k) := Real.logb_lt_logb (by norm_num) hx h
    _ = k := logb_two_pow k

lemma position_boost_nonneg (p : ℕ) : 0 ≤ position_boost p := by
  have hp : (0 : ℝ) ≤ (p : ℝ) := Nat.cast_nonneg p
  unfold position_boost
  split_ifs
  · exact le_min (by norm_num) (Real.logb_nonneg (by norm_num) (by linarith))
  · exact le_min (by norm_num) (Real.logb_nonneg (by norm_num) (by linarith))
  · exact le_refl 0

lemma position_boost_le_three {p : ℕ} (hp : p ≤ 7) : position_boost p ≤ 3 := by
  have hc : (p : ℝ) ≤ 7 := by exact_mod_cast hp
  unfold position_boost
  split_ifs with h1 h2
  · exact absurd h1 (by omega)
  · refine le_trans (min_le_right _ _) ?_
    have h8 : (p : ℝ) + 1 ≤ (2 : ℝ) ^ (3 : ℕ) := by norm_num; linarith
    simpa using logb2_le_nat 3 (by positivity) h8
  · norm_num

lemma three_le_position_boost {p : ℕ} (hp : 8 ≤ p) : 3 ≤ position_boost p := by
  have hc : (8 : ℝ) ≤ (p : ℝ) := by exact_mod_cast hp
  unfold position_boost
  rw [if_pos hp]
  refine le_min (by norm_num) ?_
  have h8 : (2 : ℝ) ^ (3 : ℕ) ≤ (p : ℝ) + 5 := by norm_num; linarith
  simpa using nat_le_logb2 3 h8

lemma position_boost_lt_four {p : ℕ} (hp : p ≤ 10) : position_boost p < 4 := by
  by_cases h1 : 8 ≤ p
  · have hc : (p : ℝ) ≤ 10 := by exact_mod_cast hp
    unfold position_boost
    rw [if_pos h1]
    refine lt_of_le_of_lt (min_le_right _ _) ?_
    have h16 : (p : ℝ) + 5 < (2 : ℝ) ^ (4 : ℕ) := by norm_num; linarith
    simpa using logb2_lt_nat 4 (by positivity) h16
  · exact lt_of_le_of_lt (position_boost_le_three (by omega)) (by norm_num)

lemma calc_relevance_fst_some (is : List Interaction) (p : ℕ)
    (f : List (String × ℝ)) (d : Fin 3) :
    (calculate_relevance_and_update_features (some is) p f d).1 =
      if (conversational_interactions is).isEmpty then
        (if (click_interactions is).isEmpty then 2 else ⌊(4 : ℝ) + position_boost p⌋)
      else ⌊(5 : ℝ) + position_boost p⌋ := by
  unfold calculate_relevance_and_update_features
  by_cases hc : (conversational_interactions is).isEmpty <;>
    by_cases hk : (click_interactions is).isEmpty <;>
    simp [hc, hk, position_boost]

lemma no_interaction_relevance_bounds (p : ℕ) (d : Fin 3) :
    0 ≤ no_interaction_relevance p d ∧ no_interaction_relevance p d ≤ 4 := by
  unfold no_interaction_relevance
  split_ifs <;> fin_cases d <;> decide

lemma ndcg_scores_pass_nil {ndcg : List ℤ → List ℝ → ℕ → ℝ} {groups : List ℕ}
    (h : ∀ g ∈ groups, g ≤ 1) (start : ℕ) (y_true : List ℤ) (y_pred : List ℝ) :
    ndcg_scores_pass ndcg start groups y_true y_pred = [] := by
  induction groups generalizing start with
  | nil => rfl
  | cons g rest ih =>
    have hg : ¬ 1 < g := by
      have := h g (by simp)
      omega
    have hrest : ∀ x ∈ rest, x ≤ 1 := fun x hx => h x (by simp [hx])
    unfold ndcg_scores_pass
    rw [if_neg hg, List.nil_append]
    exact ih hrest (start + g)

lemma ndcg_scores_pass_length (ndcg : List ℤ → List ℝ → ℕ → ℝ) (groups : List ℕ)
    (start : ℕ) (y_true : List ℤ) (y_pred : List ℝ) :
    (ndcg_scores_pass ndcg start groups y_true y_pred).length
      = (groups.filter (fun g => 1 < g)).length := by
  induction groups generalizing start with
  | nil => rfl
  | cons g rest ih =>
    unfold ndcg_scores_pass
    by_cases hg : 1 < g
    · rw [if_pos hg]
      simp [List.filter_cons, hg, ih]
    · rw [if_neg hg]
      simp [List.filter_cons, hg, ih]

/-- C7: the evaluator scores exactly the contiguous groups with at least
2 rows (one NDCG value per such group), never fails on size-1 groups,
aggregates by the mean over scored groups, and returns the fallback 0.7
when no group qualifies — in particular when every group has size 1. -/
theorem evaluator_skips_small_groups :
    ∀ (ndcg : List ℤ → List ℝ → ℕ → ℝ) (groups : List ℕ) (y_true : List ℤ) (y_pred : List ℝ),
      (ndcg_scores_pass ndcg 0 groups y_true y_pred).length
          = (groups.filter (fun g => 1 < g)).length
        ∧ ((∀ g ∈ groups, g ≤ 1) → evaluate_model ndcg groups y_true y_pred = 0.7)
        ∧ ((∃ g ∈ groups, 1 < g) →
            evaluate_model ndcg groups y_true y_pred
              = (ndcg_scores_pass ndcg 0 groups y_true y_pred).sum
                  / ((groups.filter (fun g => 1 < g)).length : ℝ)) := by
  intro ndcg groups y_true y_pred
  refine ⟨ndcg_scores_pass_length ndcg groups 0 y_true y_pred, ?_, ?_⟩
  · intro h
    unfold evaluate_model
    rw [ndcg_scores_pass_nil h]
    simp
  · rintro ⟨g, hg, hg1⟩
    have hlen : (ndcg_scores_pass ndcg 0 groups y_true y_pred).length
        = (groups.filter (fun g => 1 < g)).length :=
      ndcg_scores_pass_length ndcg groups 0 y_true y_pred
    have hmem : g ∈ groups.filter (fun g => 1 < g) := by
      simp only [List.mem_filter]
      exact ⟨hg, by simpa using hg1⟩
    have hpos : 0 < (ndcg_scores_pass ndcg 0 groups y_true y_pred).length := by
      rw [hlen]
      exact List.length_pos.mpr (List.ne_nil_of_mem hmem)
    have hne : ¬ (ndcg_scores_pass ndcg 0 groups y_true y_pred).isEmpty = true := by
      rw [List.isEmpty_iff]
      exact List.length_pos.mp hpos
    unfold evaluate_model
    rw [if_neg hne, hlen]

/-- Witness for C7 at concrete inputs: two size-1 groups yield the
fallback score 0.7. -/
theorem evaluator_skips_small_groups_witness :
    evaluate_model (fun _ _ _ => 1) [1, 1] [0, 0] [0, 0] = 0.7 :=
  (evaluator_skips_small_groups (fun _ _ _ => 1) [1, 1] [0, 0] [0, 0]).2.1
    (by intro g hg; fin_cases hg <;> norm_num)

lemma ndcg_scores_pass_nil_of_all_one {ndcg : List ℤ → List ℝ → ℕ → ℝ} {groups : List ℕ}
    (h : ∀ g ∈ groups, g = 1) (start : ℕ) (y_true : List ℤ) (y_pred : List ℝ) :
    ndcg_scores_pass ndcg start groups y_true y_pred = [] :=
  ndcg_scores_pass_nil (fun g hg => le_of_eq (h g hg)) start y_true y_pred

/-- C10: when every test group has size 1 the evaluator returns the
fallback 0.7, which exceeds the fixed 0.6 deployment threshold, so the
training run is reported successful regardless of ranking quality. -/
theorem degenerate_groups_pass_threshold :
    ∀ (ndcg : List ℤ → List ℝ → ℕ → ℝ) (groups : List ℕ) (y_true : List ℤ) (y_pred : List ℝ),
      (∀ g ∈ groups, g = 1) →
      evaluate_model ndcg groups y_true y_pred = 0.7
        ∧ model_passes_threshold (evaluate_model ndcg groups y_true y_pred) := by
  intro ndcg groups y_true y_pred h
  have he : evaluate_model ndcg groups y_true y_pred = 0.7 := by
    unfold evaluate_model
    rw [ndcg_scores_pass_nil_of_all_one h]
    simp
  refine ⟨he, ?_⟩
  rw [he]
  unfold model_passes_threshold
  norm_num

/-- Witness for C10 at concrete inputs. -/
theorem degenerate_groups_pass_threshold_witness :
    evaluate_model (fun _ _ _ => 0) [1, 1, 1] [2, 1, 0] [0, 0, 0] = 0.7
      ∧ model_passes_threshold (evaluate_model (fun _ _ _ => 0) [1, 1, 1] [2, 1, 0] [0, 0, 0]) :=
  degenerate_groups_pass_threshold (fun _ _ _ => 0) [1, 1, 1] [2, 1, 0] [0, 0, 0]
    (by intro g hg; fin_cases hg <;> rfl)

/-- C9: in the no-interaction branch the grade comes from the rank-tier
list — {2,3,4} at position 1, {1,2,3} at positions 2-3, {0,1,2} at every
position ≥ 4 — for every possible draw. -/
theorem no_interaction_grade_tiers :
    ∀ (position : ℕ) (features : List (String × ℝ)) (draw : Fin 3),
      (position = 1 →
        (calculate_relevance_and_update_features none position features draw).1
          ∈ ([2, 3, 4] : List ℤ))
      ∧ ((position = 2 ∨ position = 3) →
        (calculate_relevance_and_update_features none position features draw).1
          ∈ ([1, 2, 3] : List ℤ))
      ∧ (4 ≤ position →
        (calculate_relevance_and_update_features none position features draw).1
          ∈ ([0, 1, 2] : List ℤ)) := by
  intro position features draw
  refine ⟨?_, ?_, ?_⟩
  · rintro rfl
    show no_interaction_relevance 1 draw ∈ _
    fin_cases draw <;> decide
  · rintro (rfl | rfl) <;>
      [show no_interaction_relevance 2 draw ∈ _; show no_interaction_relevance 3 draw ∈ _] <;>
      fin_cases draw <;> decide
  · intro hp
    show no_interaction_relevance position draw ∈ _
    unfold no_interaction_relevance
    rw [if_neg (by omega), if_neg (by omega)]
    fin_cases draw <;> decide

/-- Witness for C9 at concrete inputs: position 5, middle draw. -/
theorem no_interaction_grade_tiers_witness :
    (calculate_relevance_and_update_features none 5 [] ⟨1, by norm_num⟩).1
      ∈ ([0, 1, 2] : List ℤ) :=
  (no_interaction_grade_tiers 5 [] ⟨1, by norm_num⟩).2.2 (by norm_num)

/-- C1 (counterexample): for a click interaction at position 4 the
properties-trainer labeler grades int(4 + min(5, log2(5))) = 6, outside
the claimed range [0, 5]. -/
theorem relevance_grade_exceeds_five :
    (calculate_relevance_and_update_features
        (some [{ position := 4, itype := "click", conversational := false }]) 4 [] 0).1 = 6
      ∧ ¬ ((calculate_relevance_and_update_features
        (some [{ position := 4, itype := "click", conversational := false }]) 4 [] 0).1 ≤ 5) := by
  have hfst : (calculate_relevance_and_update_features
      (some [{ position := 4, itype := "click", conversational := false }]) 4 [] 0).1
        = ⌊(4 : ℝ) + position_boost 4⌋ := by
    rw [calc_relevance_fst_some, if_pos (by decide), if_neg (by decide)]
  have hb : position_boost 4 = Real.logb 2 5 := by
    have h3 : Real.logb 2 (5 : ℝ) ≤ ((3 : ℕ) : ℝ) := logb2_le_nat 3 (by norm_num) (by norm_num)
    push_cast at h3
    have h5 : Real.logb 2 (5 : ℝ) ≤ 5 := by linarith
    unfold position_boost
    rw [if_neg (by omega), if_pos (by omega)]
    have hc : ((4 : ℕ) : ℝ) + 1 = (5 : ℝ) := by norm_num
    rw [hc]
    exact min_eq_right h5
  have h25 : (2 : ℝ) ≤ Real.logb 2 5 := by
    have := nat_le_logb2 (x := (5 : ℝ)) 2 (by norm_num)
    push_cast at this
    linarith
  have h53 : Real.logb 2 5 < 3 := by
    have := logb2_lt_nat (x := (5 : ℝ)) 3 (by norm_num) (by norm_num)
    push_cast at this
    linarith
  have hfloor : ⌊(4 : ℝ) + Real.logb 2 5⌋ = 6 := by
    rw [Int.floor_eq_iff]
    constructor <;> push_cast <;> linarith
  constructor
  · rw [hfst, hb, hfloor]
  · rw [hfst, hb, hfloor]
    norm_num

/-- C1 (amended): for the builder's positions 1-10 the properties-trainer
relevance grade is an integer in [0, 8] (interaction-present grades at
positions ≥ 4 exceed 5), while the unified-trainer relevance grade is an
integer in [0, 5]. -/
theorem relevance_grade_bounds :
    (∀ (interactions : Option (List Interaction)) (position : ℕ)
        (features : List (String × ℝ)) (draw : Fin 3),
      1 ≤ position → position ≤ 10 →
      0 ≤ (calculate_relevance_and_update_features interactions position features draw).1
        ∧ (calculate_relevance_and_update_features interactions position features draw).1 ≤ 8)
    ∧ (∀ (interactions : Option (List Interaction)) (position : ℕ) (draw : Fin 3),
      0 ≤ unified_relevance interactions position draw
        ∧ unified_relevance interactions position draw ≤ 5) := by
  constructor
  · intro i p f d h1 h10
    match i with
    | none =>
      have hb := no_interaction_relevance_bounds p d
      have he : (calculate_relevance_and_update_features none p f d).1
          = no_interaction_relevance p d := rfl
      rw [he]
      omega
    | some is =>
      rw [calc_relevance_fst_some]
      have hb0 := position_boost_nonneg p
      have hb4 := position_boost_lt_four h10
      split_ifs with hc hk
      · constructor <;> norm_num
      · constructor
        · exact Int.le_floor.mpr (by push_cast; linarith)
        · have : ⌊(4 : ℝ) + position_boost p⌋ < 9 := Int.floor_lt.mpr (by push_cast; linarith)
          omega
      · constructor
        · exact Int.le_floor.mpr (by push_cast; linarith)
        · have : ⌊(5 : ℝ) + position_boost p⌋ < 9 := Int.floor_lt.mpr (by push_cast; linarith)
          omega
  · intro i p d
    match i with
    | none =>
      have hb := no_interaction_relevance_bounds p d
      have he : unified_relevance none p d = no_interaction_relevance p d := rfl
      rw [he]
      omega
    | some is =>
      have he : unified_relevance (some is) p d =
          if ((is.filter (fun i => i.conversational)).isEmpty : Bool) then
            (if ((is.filter (fun i => str_contains "click" i.itype)).isEmpty : Bool) then 2 else 3)
          else 4 := rfl
      rw [he]
      split_ifs <;> constructor <;> decide

/-- Witness for C1 at concrete inputs: a click at position 4 and a
conversational interaction for the unified labeler. -/
theorem relevance_grade_bounds_witness :
    (0 ≤ (calculate_relevance_and_update_features
          (some [{ position := 4, itype := "property_engagement", conversational := false }])
          4 [] 0).1
      ∧ (calculate_relevance_and_update_features
          (some [{ position := 4, itype := "property_engagement", conversational := false }])
          4 [] 0).1 ≤ 8)
    ∧ (0 ≤ unified_relevance
          (some [{ position := 2, itype := "click", conversational := true }]) 2 0
      ∧ unified_relevance
          (some [{ position := 2, itype := "click", conversational := true }]) 2 0 ≤ 5) :=
  ⟨relevance_grade_bounds.1
      (some [{ position := 4, itype := "property_engagement", conversational := false }])
      4 [] 0 (by norm_num) (by norm_num),
   relevance_grade_bounds.2
      (some [{ position := 2, itype := "click", conversational := true }]) 2 0⟩

/-- C5: the labeler is monotone in the interaction class at a fixed
position (conversational ≥ click-like ≥ view-only ≥ 0), the position
boost for positions ≥ 8 dominates the boost for positions 4-7, and when
interactions exist but none are click-like or conversational the grade
is the fixed view-only constant 2 regardless of position. -/
theorem relevance_labeler_monotonicity :
    (∀ (position : ℕ) (d : Fin 3) (f1 f2 f3 : List (String × ℝ))
        (is_conv is_clk is_view : List Interaction),
      conversational_interactions is_conv ≠ [] →
      conversational_interactions is_clk = [] →
      click_interactions is_clk ≠ [] →
      conversational_interactions is_view = [] →
      click_interactions is_view = [] →
      0 ≤ (calculate_relevance_and_update_features (some is_view) position f3 d).1
        ∧ (calculate_relevance_and_update_features (some is_view) position f3 d).1
            ≤ (calculate_relevance_and_update_features (some is_clk) position f2 d).1
        ∧ (calculate_relevance_and_update_features (some is_clk) position f2 d).1
            ≤ (calculate_relevance_and_update_features (some is_conv) position f1 d).1)
    ∧ (∀ p1 p2 : ℕ, 4 ≤ p1 → p1 ≤ 7 → 8 ≤ p2 → position_boost p1 ≤ position_boost p2)
    ∧ (∀ (position : ℕ) (d : Fin 3) (f : List (String × ℝ)) (is : List Interaction),
      is ≠ [] →
      conversational_interactions is = [] →
      click_interactions is = [] →
      (calculate_relevance_and_update_features (some is) position f d).1 = 2) := by
  refine ⟨?_, ?_, ?_⟩
  · intro p d f1 f2 f3 is_conv is_clk is_view hconv hclk1 hclk2 hview1 hview2
    have hb0 := position_boost_nonneg p
    have hv1 : (conversational_interactions is_view).isEmpty = true := by
      simp [List.isEmpty_iff, hview1]
    have hv2 : (click_interactions is_view).isEmpty = true := by
      simp [List.isEmpty_iff, hview2]
    have hk1 : (conversational_interactions is_clk).isEmpty = true := by
      simp [List.isEmpty_iff, hclk1]
    have hk2 : ¬ (click_interactions is_clk).isEmpty = true := by
      simp [List.isEmpty_iff, hclk2]
    have hc1 : ¬ (conversational_interactions is_conv).isEmpty = true := by
      simp [List.isEmpty_iff, hconv]
    rw [calc_relevance_fst_some, calc_relevance_fst_some, calc_relevance_fst_some,
      if_pos hv1, if_pos hv2, if_pos hk1, if_neg hk2, if_neg hc1]
    refine ⟨by norm_num, ?_, ?_⟩
    · exact Int.le_floor.mpr (by push_cast; linarith)
    · exact Int.floor_mono (by linarith)
  · intro p1 p2 hp1 hp17 hp28
    exact le_trans (position_boost_le_three hp17) (three_le_position_boost hp28)
  · intro p d f is hne hc hk
    have hc1 : (conversational_interactions is).isEmpty = true := by
      simp [List.isEmpty_iff, hc]
    have hk1 : (click_interactions is).isEmpty = true := by
      simp [List.isEmpty_iff, hk]
    rw [calc_relevance_fst_some, if_pos hc1, if_pos hk1]

/-- Witness for C5 at concrete inputs. -/
theorem relevance_labeler_monotonicity_witness :
    (0 ≤ (calculate_relevance_and_update_features
          (some [{ position := 9, itype := "view", conversational := false }]) 9 [] 0).1
      ∧ (calculate_relevance_and_update_features
          (some [{ position := 9, itype := "view", conversational := false }]) 9 [] 0).1
          ≤ (calculate_relevance_and_update_features
          (some [{ position := 9, itype := "click", conversational := false }]) 9 [] 0).1
      ∧ (calculate_relevance_and_update_features
          (some [{ position := 9, itype := "click", conversational := false }]) 9 [] 0).1
          ≤ (calculate_relevance_and_update_features
          (some [{ position := 9, itype := "view", conversational := true }]) 9 [] 0).1)
    ∧ position_boost 4 ≤ position_boost 8
    ∧ (calculate_relevance_and_update_features
        (some [{ position := 10, itype := "view", conversational := false }]) 10 [] 0).1 = 2 :=
  ⟨relevance_labeler_monotonicity.1 9 0 [] [] []
      [{ position := 9, itype := "view", conversational := true }]
      [{ position := 9, itype := "click", conversational := false }]
      [{ position := 9, itype := "view", conversational := false }]
      (by decide) (by decide) (by decide) (by decide) (by decide),
   relevance_labeler_monotonicity.2.1 4 8 (by norm_num) (by norm_num) (by norm_num),
   relevance_labeler_monotonicity.2.2 10 0 []
      [{ position := 10, itype := "view", conversational := false }]
      (by decide) (by decide) (by decide)⟩

lemma base_feature_reciprocal (p : ℕ) (st : ℝ) (tid q se : String)
    (md : Option SessionMeta) (ε : BaseNoise) :
    dict_get (extract_base_features p st tid q se md ε) "position_reciprocal"
      = 1 / (p : ℝ) :=
  rfl

lemma base_feature_bias_factor (p : ℕ) (st : ℝ) (tid q se : String)
    (md : Option SessionMeta) (ε : BaseNoise) :
    dict_get (extract_base_features p st tid q se md ε) "position_bias_factor"
      = 1 / Real.logb 2 ((p : ℝ) + 1) :=
  rfl

lemma base_feature_log (p : ℕ) (st : ℝ) (tid q se : String)
    (md : Option SessionMeta) (ε : BaseNoise) :
    dict_get (extract_base_features p st tid q se md ε) "position_log"
      = Real.log ((p : ℝ) + 1) :=
  rfl

/-- C4 (counterexample): the `position_log` feature is strictly
increasing in rank, so its value at position 1 is not ≥ its value at
position 2; the claim that all three position-derived features decrease
fails. -/
theorem position_log_not_decreasing :
    ¬ (dict_get (extract_base_features 2 100 "" "" "" none ⟨0, 0, 0, 0⟩) "position_log"
        ≤ dict_get (extract_base_features 1 100 "" "" "" none ⟨0, 0, 0, 0⟩) "position_log") := by
  rw [base_feature_log, base_feature_log]
  push_cast
  rw [not_le]
  have h23 : Real.log 2 < Real.log 3 := Real.log_lt_log (by norm_num) (by norm_num)
  norm_num
  linarith

/-- C4 (amended): the reciprocal and the log2-based bias factor are
monotonically decreasing in rank, while the log feature is monotonically
increasing. -/
theorem position_features_monotone :
    ∀ (p1 p2 : ℕ) (st : ℝ) (tid q se : String) (md : Option SessionMeta)
      (ε1 ε2 : BaseNoise),
      1 ≤ p1 → p1 < p2 →
      dict_get (extract_base_features p2 st tid q se md ε2) "position_reciprocal"
          ≤ dict_get (extract_base_features p1 st tid q se md ε1) "position_reciprocal"
        ∧ dict_get (extract_base_features p2 st tid q se md ε2) "position_bias_factor"
          ≤ dict_get (extract_base_features p1 st tid q se md ε1) "position_bias_factor"
        ∧ dict_get (extract_base_features p1 st tid q se md ε1) "position_log"
          ≤ dict_get (extract_base_features p2 st tid q se md ε2) "position_log" := by
  intro p1 p2 st tid q se md ε1 ε2 h1 h12
  have c1 : (1 : ℝ) ≤ (p1 : ℝ) := by exact_mod_cast h1
  have c2 : (p1 : ℝ) < (p2 : ℝ) := by exact_mod_cast h12
  rw [base_feature_reciprocal, base_feature_reciprocal, base_feature_bias_factor,
    base_feature_bias_factor, base_feature_log, base_feature_log]
  refine ⟨?_, ?_, ?_⟩
  · exact one_div_le_one_div_of_le (by linarith) c2.le
  · refine one_div_le_one_div_of_le ?_ ?_
    · exact Real.logb_pos (by norm_num) (by linarith)
    · exact Real.logb_le_logb_of_le (by norm_num) (by linarith) (by linarith)
  · exact (Real.log_lt_log (by linarith) (by linarith)).le

/-- Witness for C4 at concrete positions 1 and 3. -/
theorem position_features_monotone_witness :
    dict_get (extract_base_features 3 50 "t" "q" "" none ⟨0, 0, 0, 0⟩) "position_reciprocal"
        ≤ dict_get (extract_base_features 1 50 "t" "q" "" none ⟨0, 0, 0, 0⟩) "position_reciprocal"
      ∧ dict_get (extract_base_features 3 50 "t" "q" "" none ⟨0, 0, 0, 0⟩) "position_bias_factor"
        ≤ dict_get (extract_base_features 1 50 "t" "q" "" none ⟨0, 0, 0, 0⟩) "position_bias_factor"
      ∧ dict_get (extract_base_features 1 50 "t" "q" "" none ⟨0, 0, 0, 0⟩) "position_log"
        ≤ dict_get (extract_base_features 3 50 "t" "q" "" none ⟨0, 0, 0, 0⟩) "position_log" :=
  position_features_monotone 1 3 50 "t" "q" "" none ⟨0, 0, 0, 0⟩ ⟨0, 0, 0, 0⟩
    (by norm_num) (by norm_num)

lemma enrich_some (features : List (String × ℝ)) (pd : List (String × ℝ)) :
    enrich_features_with_property_data features (some pd)
      = pd.foldl (fun fs kv => if dict_has_key fs kv.1 then fs else fs ++ [kv]) features :=
  rfl

lemma fill_fold_mem_preserved (names : List String) (d : List (String × ℝ))
    (p : String × ℝ) (hp : p ∈ d) :
    p ∈ names.foldl
        (fun fs fname => if dict_has_key fs fname then fs else fs ++ [(fname, 0)]) d := by
  induction names generalizing d with
  | nil => exact hp
  | cons m rest ih =>
    rw [List.foldl_cons]
    by_cases hm : dict_has_key d m
    · rw [if_pos hm]
      exact ih d hp
    · rw [if_neg hm]
      exact ih _ (List.mem_append_left _ hp)

lemma fill_fold_has_key_preserved (names : List String) (d : List (String × ℝ))
    (n : String) (hn : dict_has_key d n = true) :
    dict_has_key (names.foldl
        (fun fs fname => if dict_has_key fs fname then fs else fs ++ [(fname, 0)]) d) n
      = true := by
  unfold dict_has_key at hn ⊢
  rw [List.any_eq_true] at hn ⊢
  obtain ⟨p, hp, hpn⟩ := hn
  exact ⟨p, fill_fold_mem_preserved names d p hp, hpn⟩

lemma fill_fold_has_key (names : List String) (d : List (String × ℝ))
    (n : String) (hn : n ∈ names) :
    dict_has_key (names.foldl
        (fun fs fname => if dict_has_key fs fname then fs else fs ++ [(fname, 0)]) d) n
      = true := by
  induction names generalizing d with
  | nil => cases hn
  | cons m rest ih =>
    rw [List.foldl_cons]
    rcases List.mem_cons.mp hn with rfl | hn2
    · by_cases hm : dict_has_key d n
      · rw [if_pos hm]
        exact fill_fold_has_key_preserved rest d n hm
      · rw [if_neg hm]
        refine fill_fold_has_key_preserved rest _ n ?_
        unfold dict_has_key
        rw [List.any_eq_true]
        exact ⟨(n, 0), List.mem_append_right _ (by simp), by simp⟩
    · by_cases hm : dict_has_key d m
      · rw [if_pos hm]
        exact ih d hn2
      · rw [if_neg hm]
        exact ih _ hn2

lemma fill_fold_fills_zero (names : List String) (d : List (String × ℝ))
    (n : String) (hn : n ∈ names) (hmiss : ¬ dict_has_key d n = true) :
    (n, (0 : ℝ)) ∈ names.foldl
        (fun fs fname => if dict_has_key fs fname then fs else fs ++ [(fname, 0)]) d := by
  induction names generalizing d with
  | nil => cases hn
  | cons m rest ih =>
    rw [List.foldl_cons]
    rcases List.mem_cons.mp hn with rfl | hn2
    · rw [if_neg hmiss]
      exact fill_fold_mem_preserved rest _ _ (List.mem_append_right _ (by simp))
    · by_cases hm : dict_has_key d m
      · rw [if_pos hm]
        exact ih d hn2 hmiss
      · rw [if_neg hm]
        by_cases hnm : n = m
        · subst hnm
          exact fill_fold_mem_preserved rest _ _ (List.mem_append_right _ (by simp))
        · refine ih _ hn2 ?_
          unfold dict_has_key at hmiss ⊢
          rw [List.any_eq_true] at hmiss ⊢
          rintro ⟨p, hp, hpn⟩
          rcases List.mem_append.mp hp with hp1 | hp2
          · exact hmiss ⟨p, hp1, hpn⟩
          · simp only [List.mem_singleton] at hp2
            subst hp2
            simp only [beq_iff_eq] at hpn
            exact hnm hpn.symm

/-- C3 (counterexample): a successfully enriched feature mapping keeps
extra document fields (here `"title"`), so after training-data
preparation its key set is a strict superset of the canonical
feature-name list, not equal to it. -/
theorem feature_mapping_has_extra_key :
    dict_has_key
        (fill_missing_features
          (enrich_features_with_property_data
            (extract_base_features 1 100 "tid" "q" ""
              (some ⟨"q", 2, 100, "tid", "", false, false, false, ""⟩) ⟨0, 0, 0, 0⟩)
            (some [("title", 1)]))) "title" = true
      ∧ "title" ∉ feature_names := by
  constructor
  · refine fill_fold_has_key_preserved feature_names _ "title" ?_
    have he : enrich_features_with_property_data
        (extract_base_features 1 100 "tid" "q" ""
          (some ⟨"q", 2, 100, "tid", "", false, false, false, ""⟩) ⟨0, 0, 0, 0⟩)
        (some [("title", 1)])
        = extract_base_features 1 100 "tid" "q" ""
            (some ⟨"q", 2, 100, "tid", "", false, false, false, ""⟩) ⟨0, 0, 0, 0⟩
          ++ [("title", 1)] := by
      rw [enrich_some, List.foldl_cons, if_neg (by decide), List.foldl_nil]
    rw [he]
    unfold dict_has_key
    rw [List.any_eq_true]
    exact ⟨("title", 1), List.mem_append_right _ (by simp), by simp⟩
  · decide

/-- C3 (amended): after the training-data preparation step every
canonical feature name is present in the mapping (missing ones having
been filled with 0.0) and no key of the incoming mapping is dropped;
extra keys copied in by property enrichment may however remain, so the
key set contains — but need not equal — the canonical list. -/
theorem prepared_features_contain_canonical :
    ∀ features : List (String × ℝ),
      (∀ n ∈ feature_names, dict_has_key (fill_missing_features features) n = true)
        ∧ (∀ p ∈ features, p ∈ fill_missing_features features)
        ∧ (∀ n ∈ feature_names, ¬ dict_has_key features n = true →
            (n, (0 : ℝ)) ∈ fill_missing_features features) := by
  intro features
  refine ⟨?_, ?_, ?_⟩
  · intro n hn
    exact fill_fold_has_key feature_names features n hn
  · intro p hp
    exact fill_fold_mem_preserved feature_names features p hp
  · intro n hn hmiss
    exact fill_fold_fills_zero feature_names features n hn hmiss

/-- Witness for C3 at a concrete input: the empty mapping gets every
canonical name filled with 0.0. -/
theorem prepared_features_contain_canonical_witness :
    dict_has_key (fill_missing_features []) "position" = true
      ∧ ("bm25_title_score", (0 : ℝ)) ∈ fill_missing_features [] :=
  ⟨(prepared_features_contain_canonical []).1 "position" (by decide),
   (prepared_features_contain_canonical []).2.2 "bm25_title_score" (by decide) (by decide)⟩

lemma insert_sorted_unique_mem (a x : ℕ) (l : List ℕ) :
    x ∈ insert_sorted_unique a l ↔ x = a ∨ x ∈ l := by
  induction l with
  | nil => simp [insert_sorted_unique]
  | cons y ys ih =>
    unfold insert_sorted_unique
    split_ifs with h1 h2
    · simp [List.mem_cons]
    · subst h2
      simp [List.mem_cons]
    · simp only [List.mem_cons, ih]
      tauto

lemma insert_sorted_unique_sorted (a : ℕ) (l : List ℕ) (h : l.Sorted (· < ·)) :
    (insert_sorted_unique a l).Sorted (· < ·) := by
  induction l with
  | nil => simp [insert_sorted_unique]
  | cons y ys ih =>
    rw [List.sorted_cons] at h
    obtain ⟨hy, hys⟩ := h
    unfold insert_sorted_unique
    split_ifs with h1 h2
    · rw [List.sorted_cons]
      refine ⟨?_, ?_⟩
      · intro b hb
        rcases List.mem_cons.mp hb with rfl | hb2
        · exact h1
        · exact lt_trans h1 (hy b hb2)
      · rw [List.sorted_cons]
        exact ⟨hy, hys⟩
    · rw [List.sorted_cons]
      exact ⟨hy, hys⟩
    · rw [List.sorted_cons]
      refine ⟨?_, ih hys⟩
      intro b hb
      rcases (insert_sorted_unique_mem a b ys).mp hb with rfl | hb2
      · omega
      · exact hy b hb2

lemma np_unique_sorted (l : List ℕ) : (np_unique l).Sorted (· < ·) := by
  induction l with
  | nil => exact List.sorted_nil
  | cons a rest ih => exact insert_sorted_unique_sorted a (np_unique rest) ih

lemma np_unique_mem (l : List ℕ) (x : ℕ) : x ∈ np_unique l ↔ x ∈ l := by
  induction l with
  | nil => simp [np_unique]
  | cons a rest ih =>
    show x ∈ insert_sorted_unique a (np_unique rest) ↔ _
    rw [insert_sorted_unique_mem, ih, List.mem_cons]

lemma sorted_flatMap_replicate (c : ℕ → ℕ) (l : List ℕ) (h : l.Sorted (· < ·)) :
    (l.flatMap (fun q => List.replicate (c q) q)).Sorted (· ≤ ·) := by
  induction l with
  | nil => exact List.sorted_nil
  | cons a rest ih =>
    rw [List.sorted_cons] at h
    obtain ⟨ha, hrest⟩ := h
    rw [List.flatMap_cons]
    show List.Pairwise (· ≤ ·) _
    rw [List.pairwise_append]
    refine ⟨List.pairwise_replicate.mpr (Or.inr (le_refl a)), ih hrest, ?_⟩
    intro x hx b hb
    rw [List.mem_replicate] at hx
    obtain ⟨-, rfl⟩ := hx
    rw [List.mem_flatMap] at hb
    obtain ⟨r, hr, hb2⟩ := hb
    rw [List.mem_replicate] at hb2
    obtain ⟨-, rfl⟩ := hb2
    exact (ha _ hr).le

lemma zip_filter_count {β : Type} (ys : List β) (qs : List ℕ)
    (h : ys.length = qs.length) (q : ℕ) :
    ((ys.zip qs).filter (fun p => p.2 == q)).length = qs.count q := by
  induction qs generalizing ys with
  | nil => simp
  | cons q0 qs2 ih =>
    cases ys with
    | nil => simp at h
    | cons b ys2 =>
      have h2 : ys2.length = qs2.length := by simpa using h
      simp only [List.zip_cons_cons, List.filter_cons, List.count_cons]
      by_cases hq : q0 = q
      · subst hq
        simp [ih ys2 h2]
      · have hq2 : ¬ q = q0 := fun hh => hq hh.symm
        simp [hq, hq2, ih ys2 h2]

lemma row_qids_length (qids : List ℕ) :
    (row_qids qids).length = ((np_unique qids).map (fun q => qids.count q)).sum := by
  unfold row_qids
  rw [List.flatMap_def, List.length_flatten, List.map_map]
  congr 1
  refine List.map_congr_left ?_
  intro a _
  exact List.length_replicate _ _

lemma row_qids_getD_le (qids : List ℕ) (i j : ℕ) (hij : i ≤ j)
    (hj : j < (row_qids qids).length) :
    (row_qids qids).getD i 0 ≤ (row_qids qids).getD j 0 := by
  have hi : i < (row_qids qids).length := lt_of_le_of_lt hij hj
  have hs : (row_qids qids).Sorted (· ≤ ·) :=
    sorted_flatMap_replicate (fun q => qids.count q) (np_unique qids) (np_unique_sorted qids)
  have ei : (row_qids qids).getD i 0 = (row_qids qids).get ⟨i, hi⟩ := by
    rw [List.getD_eq_getElem?_getD, List.getElem?_eq_getElem hi]
    rfl
  have ej : (row_qids qids).getD j 0 = (row_qids qids).get ⟨j, hj⟩ := by
    rw [List.getD_eq_getElem?_getD, List.getElem?_eq_getElem hj]
    rfl
  rw [ei, ej]
  exact List.Sorted.rel_get_of_le hs hij

/-- C2: whenever the grouping step succeeds, the group sizes sum to the
number of rows and (for parallel inputs) to the number of labels, the
output rows are arranged qid-block by qid-block so rows sharing a qid
occupy contiguous indices, and a mismatch between the size sum and the
row count makes the step return `none` (training is aborted, nothing is
truncated). -/
theorem grouped_matrix_invariants :
    (∀ (X : List (List ℝ)) (y : List ℤ) (qids : List ℕ) (g : GroupedData (List ℝ)),
      prepare_grouped_data X y qids = some g →
      g.groups.sum = g.X.length
        ∧ (y.length = qids.length → g.groups.sum = g.y.length)
        ∧ (X.length = qids.length → g.X.length = (row_qids qids).length)
        ∧ (∀ i j k : ℕ, i ≤ j → j ≤ k → k < (row_qids qids).length →
            (row_qids qids).getD i 0 = (row_qids qids).getD k 0 →
            (row_qids qids).getD j 0 = (row_qids qids).getD i 0))
    ∧ (∀ (X : List (List ℝ)) (y : List ℤ) (qids : List ℕ),
      (group_sizes_of qids).sum ≠ (grouped_rows X qids).flatten.length →
      prepare_grouped_data X y qids = none) := by
  constructor
  · intro X y qids g hg
    unfold prepare_grouped_data at hg
    split_ifs at hg with h1 h2 h3
    injection hg with hg2
    subst hg2
    have hsum : (group_sizes_of qids).sum = (grouped_rows X qids).flatten.length :=
      not_ne_iff.mp h2
    refine ⟨hsum, ?_, ?_, ?_⟩
    · intro hlen
      show (group_sizes_of qids).sum = (grouped_rows y qids).flatten.length
      unfold grouped_rows group_sizes_of
      rw [List.length_flatten, List.map_map]
      refine congrArg List.sum (List.map_congr_left ?_).symm
      intro q _
      show (((y.zip qids).filter (fun p => p.2 == q)).map Prod.fst).length = qids.count q
      rw [List.length_map]
      exact zip_filter_count y qids hlen q
    · intro hlen
      show (grouped_rows X qids).flatten.length = (row_qids qids).length
      rw [row_qids_length, ← hsum]
      rfl
    · intro i j k hij hjk hk hik
      have h1le : (row_qids qids).getD i 0 ≤ (row_qids qids).getD j 0 :=
        row_qids_getD_le qids i j hij (lt_of_le_of_lt hjk hk)
      have h2le : (row_qids qids).getD j 0 ≤ (row_qids qids).getD k 0 :=
        row_qids_getD_le qids j k hjk hk
      omega
  · intro X y qids hmm
    unfold prepare_grouped_data
    split_ifs <;> rfl

/-- Witness for C2 at concrete inputs: a successful grouping of two rows
with distinct qids, and a `none` result when the row list is shorter
than the qid list. -/
theorem grouped_matrix_invariants_witness :
    (prepare_grouped_data ([[5], [6]] : List (List ℝ)) [1, 0] [7, 3]
        = some ⟨[[6], [5]], [0, 1], [1, 1]⟩)
      ∧ ([1, 1].sum = ([[6], [5]] : List (List ℝ)).length
          ∧ [1, 1].sum = ([0, 1] : List ℤ).length)
      ∧ prepare_grouped_data ([] : List (List ℝ)) [0] [4] = none := by
  have hg : prepare_grouped_data ([[5], [6]] : List (List ℝ)) [1, 0] [7, 3]
      = some ⟨[[6], [5]], [0, 1], [1, 1]⟩ := rfl
  have hparts := (grouped_matrix_invariants.1 ([[5], [6]] : List (List ℝ)) [1, 0] [7, 3]
    ⟨[[6], [5]], [0, 1], [1, 1]⟩ hg)
  refine ⟨hg, ⟨hparts.1, hparts.2.1 (by decide)⟩, ?_⟩
  exact grouped_matrix_invariants.2 ([] : List (List ℝ)) [0] [4] (by decide)

lemma process_positions_eq (env : PipelineEnv) (session_id query : String)
    (results_count : ℕ) (search_time : ℝ) (template_id : String)
    (session_results : List (ℕ × String))
    (interaction_lookup : String → Option (List Interaction))
    (search_event : String) (metadata : Option SessionMeta) :
    process_search_positions env session_id query results_count search_time template_id
        session_results interaction_lookup search_event metadata
      = (valid_positions env session_results results_count).map
          (fun position => build_training_example env session_id query search_time
            template_id search_event metadata interaction_lookup position
            ((session_results.lookup position).getD "")) := by
  unfold process_search_positions valid_positions
  induction List.range' 1 (min 10 results_count) with
  | nil => rfl
  | cons a l ih =>
    rw [List.filterMap_cons, List.filter_cons]
    cases hl : session_results.lookup a with
    | none =>
      have hr : resolvable_position env session_results a = false := by
        simp [resolvable_position, hl]
      rw [hr, if_neg Bool.false_ne_true]
      simp only [hl]
      exact ih
    | some doc_id =>
      by_cases hd : doc_id = ""
      · subst hd
        have hr : resolvable_position env session_results a = false := by
          simp [resolvable_position, hl]
        rw [hr, if_neg Bool.false_ne_true]
        simp only [hl, if_pos]
        exact ih
      · by_cases he : env.doc_exists doc_id
        · have hr : resolvable_position env session_results a = true := by
            simp [resolvable_position, hl, hd, he]
          rw [hr, if_pos rfl, List.map_cons]
          simp only [hl, if_neg hd, he, if_pos]
          rw [ih]
          rfl
        · have hr : resolvable_position env session_results a = false := by
            simp [resolvable_position, hl, hd, he]
          rw [hr, if_neg Bool.false_ne_true]
          simp only [hl, if_neg hd, he, if_neg]
          exact ih

/-- C6: the training-set builder emits exactly one example per
(session, position) pair with position in [1, min(10, results_count)]
that resolves to an existing document id; unresolvable positions are
skipped, and sessions with result_count 0 or an absent/empty result
lookup contribute no examples. -/
theorem builder_emits_per_resolvable_position :
    ∀ (env : PipelineEnv) (results_lookup : List (String × List (ℕ × String)))
      (query_metadata : List (String × SessionMeta))
      (interaction_lookup : String → Option (List Interaction)),
      (∀ p ∈ query_metadata, p.1 ≠ "") →
      process_search_results_for_training env results_lookup query_metadata interaction_lookup
          = query_metadata.flatMap (fun p =>
              if p.2.results_count = 0
                  ∨ ((results_lookup.lookup p.1).getD []).isEmpty = true then []
              else (valid_positions env ((results_lookup.lookup p.1).getD [])
                  p.2.results_count).map
                (fun position => build_training_example env p.1 p.2.query p.2.search_time
                  p.2.template_id p.2.search_event (some p.2) interaction_lookup position
                  ((((results_lookup.lookup p.1).getD []).lookup position).getD "")))
        ∧ (process_search_results_for_training env results_lookup query_metadata
              interaction_lookup).length
          = (query_metadata.map (fun p =>
              if p.2.results_count = 0
                  ∨ ((results_lookup.lookup p.1).getD []).isEmpty = true then 0
              else (valid_positions env ((results_lookup.lookup p.1).getD [])
                  p.2.results_count).length)).sum := by
  intro env results_lookup query_metadata interaction_lookup hsid
  have hmain : process_search_results_for_training env results_lookup query_metadata
      interaction_lookup
      = query_metadata.flatMap (fun p =>
          if p.2.results_count = 0
              ∨ ((results_lookup.lookup p.1).getD []).isEmpty = true then []
          else (valid_positions env ((results_lookup.lookup p.1).getD [])
              p.2.results_count).map
            (fun position => build_training_example env p.1 p.2.query p.2.search_time
              p.2.template_id p.2.search_event (some p.2) interaction_lookup position
              ((((results_lookup.lookup p.1).getD []).lookup position).getD ""))) := by
    unfold process_search_results_for_training
    rw [List.flatMap_def, List.flatMap_def]
    refine congrArg List.flatten (List.map_congr_left ?_)
    intro p hp
    have hne : p.1 ≠ "" := hsid p hp
    by_cases hz : p.2.results_count = 0
    · rw [if_pos (Or.inr hz), if_pos (Or.inl hz)]
    · rw [if_neg (by tauto)]
      by_cases hres : ((results_lookup.lookup p.1).getD []).isEmpty = true
      · rw [if_pos hres, if_pos (Or.inr hres)]
      · rw [if_neg hres, if_neg (by tauto)]
        exact process_positions_eq env p.1 p.2.query p.2.results_count p.2.search_time
          p.2.template_id _ interaction_lookup p.2.search_event (some p.2)
  refine ⟨hmain, ?_⟩
  rw [hmain, List.flatMap_def, List.length_flatten, List.map_map]
  refine congrArg List.sum (List.map_congr_left ?_)
  intro p _
  show (if p.2.results_count = 0
          ∨ ((results_lookup.lookup p.1).getD []).isEmpty = true then ([] : List TrainingExample)
        else (valid_positions env ((results_lookup.lookup p.1).getD [])
            p.2.results_count).map
          (fun position => build_training_example env p.1 p.2.query p.2.search_time
            p.2.template_id p.2.search_event (some p.2) interaction_lookup position
            ((((results_lookup.lookup p.1).getD []).lookup position).getD ""))).length
      = _
  by_cases hc : p.2.results_count = 0
      ∨ ((results_lookup.lookup p.1).getD []).isEmpty = true
  · rw [if_pos hc, if_pos hc]
    rfl
  · rw [if_neg hc, if_neg hc, List.length_map]

/-- Witness for C6 at concrete inputs: one session with two result
positions, the second of which has an empty (falsy) document id. -/
theorem builder_emits_per_resolvable_position_witness :
    (process_search_results_for_training
        ⟨fun _ => true, fun _ => none, fun _ _ => ⟨0, 0, 0, 0⟩, fun _ _ => 0, fun _ => 5⟩
        [("s", [(1, "d1"), (2, "")])]
        [("s", ⟨"q", 2, 100, "t", "", false, false, false, ""⟩)]
        (fun _ => none)).length
      = ([("s", (⟨"q", 2, 100, "t", "", false, false, false, ""⟩ : SessionMeta))].map (fun p =>
          if p.2.results_count = 0
              ∨ (([("s", [(1, "d1"), (2, "")])].lookup p.1).getD []).isEmpty = true then 0
          else (valid_positions
              ⟨fun _ => true, fun _ => none, fun _ _ => ⟨0, 0, 0, 0⟩, fun _ _ => 0, fun _ => 5⟩
              (([("s", [(1, "d1"), (2, "")])].lookup p.1).getD [])
              p.2.results_count).length)).sum :=
  (builder_emits_per_resolvable_position
    ⟨fun _ => true, fun _ => none, fun _ _ => ⟨0, 0, 0, 0⟩, fun _ _ => 0, fun _ => 5⟩
    [("s", [(1, "d1"), (2, "")])]
    [("s", ⟨"q", 2, 100, "t", "", false, false, false, ""⟩)]
    (fun _ => none)
    (by intro p hp; rw [List.mem_singleton] at hp; subst hp; decide)).2

lemma ArrayHeap.get_set_ne (h : ArrayHeap) (i k : ℕ) (M : Mat) (hk : k ≠ i) :
    (h.set i M).get k = h.get k := by
  simp [ArrayHeap.get, ArrayHeap.set, hk]

lemma ArrayHeap.alloc_id (h : ArrayHeap) (M : Mat) : (h.alloc M).2 = h.next :=
  rfl

lemma ArrayHeap.alloc_heap_next (h : ArrayHeap) (M : Mat) : (h.alloc M).1.next = h.next + 1 :=
  rfl

lemma ArrayHeap.get_alloc_ne (h : ArrayHeap) (M : Mat) (k : ℕ) (hk : k ≠ h.next) :
    (h.alloc M).1.get k = h.get k := by
  simp [ArrayHeap.alloc, ArrayHeap.get, hk]

lemma amp_foldl_get_ne (steps : List (String × ℝ)) (tm te k : ℕ) (hh : ArrayHeap)
    (h1 : k ≠ tm) (h2 : k ≠ te) :
    (steps.foldl (amp_step tm te) hh).get k = hh.get k := by
  induction steps generalizing hh with
  | nil => rfl
  | cons s rest ih =>
    rw [List.foldl_cons, ih]
    simp only [amp_step]
    rw [ArrayHeap.get_set_ne _ _ _ _ h2, ArrayHeap.get_set_ne _ _ _ _ h1]

/-- C8: the multiplicative amplification and the tie-breaking noise in
the model-fitting step touch only the freshly copied matrices: the
training and test arrays passed in are unchanged when the step
returns. -/
theorem fit_model_preserves_inputs :
    ∀ (h : ArrayHeap) (train_idx test_idx : ℕ) (noise_train noise_test : Mat),
      train_idx < h.next → test_idx < h.next →
      (fit_xgboost_model_arrays h train_idx test_idx noise_train noise_test).1.get train_idx
          = h.get train_idx
        ∧ (fit_xgboost_model_arrays h train_idx test_idx noise_train noise_test).1.get test_idx
          = h.get test_idx := by
  intro h train_idx test_idx noise_train noise_test htr hte
  have htr1 : train_idx ≠ h.next := by omega
  have htr2 : train_idx ≠ h.next + 1 := by omega
  have hte1 : test_idx ≠ h.next := by omega
  have hte2 : test_idx ≠ h.next + 1 := by omega
  simp only [fit_xgboost_model_arrays, ArrayHeap.alloc_id, ArrayHeap.alloc_heap_next]
  constructor
  · rw [ArrayHeap.get_set_ne _ _ _ _ htr2, ArrayHeap.get_set_ne _ _ _ _ htr1,
      amp_foldl_get_ne _ _ _ _ _ htr1 htr2,
      ArrayHeap.get_alloc_ne _ _ _ (by rw [ArrayHeap.alloc_heap_next]; omega),
      ArrayHeap.get_alloc_ne _ _ _ htr1]
  · rw [ArrayHeap.get_set_ne _ _ _ _ hte2, ArrayHeap.get_set_ne _ _ _ _ hte1,
      amp_foldl_get_ne _ _ _ _ _ hte1 hte2,
      ArrayHeap.get_alloc_ne _ _ _ (by rw [ArrayHeap.alloc_heap_next]; omega),
      ArrayHeap.get_alloc_ne _ _ _ hte1]

/-- Witness for C8 at a concrete two-array heap. -/
theorem fit_model_preserves_inputs_witness :
    (fit_xgboost_model_arrays ⟨fun _ => [[1, 2]], 2⟩ 0 1 [[0, 0]] [[0, 0]]).1.get 0
        = ArrayHeap.get ⟨fun _ => [[1, 2]], 2⟩ 0
      ∧ (fit_xgboost_model_arrays ⟨fun _ => [[1, 2]], 2⟩ 0 1 [[0, 0]] [[0, 0]]).1.get 1
        = ArrayHeap.get ⟨fun _ => [[1, 2]], 2⟩ 1 :=
  fit_model_preserves_inputs ⟨fun _ => [[1, 2]], 2⟩ 0 1 [[0, 0]] [[0, 0]]
    (by norm_num) (by norm_num)

end LTR
